import Mathlib

/-!
Verification development for the trace-recording effect-handler core
(`pyro/poutine/trace_poutine.py`): the `Trace` data model, the
`TraceMessenger` / `TracePoutine` handler pipeline, and the dense-edge
construction pass `identify_dense_edges`.

Functions present in the excerpt are translated directly from the source.
Collaborators that the excerpt imports but that are not part of it
(the `Trace` container, the `Messenger`/`Poutine` base classes including the
execution stack, and the `site_is_subsample` predicate) are modelled from the
specification and marked as such in their doc comments.
-/

namespace PyroTrace

/-- A conditional-independence context frame: (context name, replicate counter). -/
structure Frame where
  name : String
  counter : Int
deriving DecidableEq, Repr

/-- A trace site.  Fields mirror the message/node dictionaries of the source:
`name`, `type` (a string tag), `value` (payload, modelled as a natural),
`cond_indep_stack`, the `args`/`kwargs` recorded at synthetic nodes,
`is_observed`, and the externally supplied subsample classification
(see `site_is_subsample`). -/
structure Node where
  name : String
  type : String
  value : Nat
  cond_indep_stack : List Frame
  args : List Nat
  kwargs : List (String × Nat)
  is_observed : Bool
  subsample : Bool
deriving DecidableEq, Repr

/-- Modelled from the spec: a Trace is a container of named nodes in insertion
order plus a set of directed edges (ordered pairs of names), with an immutable
`graph_type`.  The Trace class itself is not part of the excerpt. -/
structure Trace where
  graph_type : String
  nodes : List Node
  edges : List (String × String)
deriving DecidableEq, Repr

/-- Modelled from the spec: Trace membership test by name. -/
def Trace.containsName (t : Trace) (n : String) : Bool :=
  t.nodes.any (fun nd => nd.name == n)

/-- Modelled from the spec: node lookup by name (the node mapping keyed by name). -/
def Trace.findNode (t : Trace) (n : String) : Option Node :=
  t.nodes.find? (fun nd => nd.name == n)

/-- Modelled from the spec: node insertion by name, rejecting duplicates
(violated attempts fail loudly rather than silently overwrite). -/
def Trace.add_node (t : Trace) (nd : Node) : Except String Trace :=
  if t.containsName nd.name then
    Except.error ("duplicate site " ++ nd.name)
  else
    Except.ok { t with nodes := t.nodes ++ [nd] }

/-- Modelled from the spec: idempotent directed-edge insertion
(adding an existing edge is a no-op). -/
def Trace.add_edge (t : Trace) (f n : String) : Trace :=
  if (f, n) ∈ t.edges then t else { t with edges := t.edges ++ [(f, n)] }

/-- Modelled from the spec: shallow copy of a Trace
(a new Trace instance carrying the same node and edge data). -/
def Trace.copy (t : Trace) : Trace :=
  { graph_type := t.graph_type, nodes := t.nodes, edges := t.edges }

/-- Modelled from the spec: the externally supplied boolean predicate that
classifies a node as a subsampling pseudo-site (`pyro.poutine.util` is not part
of the excerpt); the classification is carried on the node itself. -/
def site_is_subsample (nd : Node) : Bool :=
  nd.subsample

/-- The inner-loop independence test of `identify_dense_edges`: zip the current
node's `cond_indep_stack` (query) with the past node's (target), and report
whether some paired frame has the same context name but a different counter. -/
def past_node_independent (node past_node : Node) : Bool :=
  (node.cond_indep_stack.zip past_node.cond_indep_stack).any
    (fun qt => qt.1.name == qt.2.name && qt.1.counter != qt.2.counter)

/-- The inner loop of `identify_dense_edges`, translated directly from the
source: iterate over the (fixed) node list, skipping when
`site_is_subsample(node)` holds — the source tests the OUTER `node` here, not
`past_node` — considering only sample sites, breaking when the current node's
own name is reached, and adding an edge `past_node -> node` whenever the pair
is not judged independent. -/
def denseInner (node : Node) : List Node → Trace → Trace
  | [], tr => tr
  | past_node :: rest, tr =>
    if site_is_subsample node then
      denseInner node rest tr
    else if past_node.type = "sample" then
      if past_node.name = node.name then tr
      else if past_node_independent node past_node then
        denseInner node rest tr
      else
        denseInner node rest (tr.add_edge past_node.name node.name)
    else
      denseInner node rest tr

/-- The outer loop of `identify_dense_edges`: for each node in insertion order,
skip subsample pseudo-sites, and for each sample site run the inner loop over
the trace's node list (which edge insertion leaves unchanged). -/
def denseOuter : List Node → Trace → Trace
  | [], tr => tr
  | node :: rest, tr =>
    if site_is_subsample node then
      denseOuter rest tr
    else if node.type = "sample" then
      denseOuter rest (denseInner node tr.nodes tr)
    else
      denseOuter rest tr

/-- `identify_dense_edges`: modifies a trace by adding all edges based on the
`cond_indep_stack` information stored at each site. -/
def identify_dense_edges (tr : Trace) : Trace :=
  denseOuter tr.nodes tr

/-- The prefix of a node list that the inner loop of `identify_dense_edges`
actually scans for a given current node: everything up to (excluding) the
first sample site bearing the current node's own name. -/
def scanPrefix (node : Node) (ns : List Node) : List Node :=
  ns.takeWhile (fun p => !(decide (p.type = "sample" ∧ p.name = node.name)))

/-- The edges the inner loop contributes for a given current node when scanning
a node list: an edge from every sample site in the scanned prefix that is not
judged independent of the current node. -/
def InnerSpec (node : Node) (ns : List Node) (e : String × String) : Prop :=
  ∃ p, p ∈ scanPrefix node ns ∧ p.type = "sample" ∧
    past_node_independent node p = false ∧ e = (p.name, node.name)

/-- Modelled from the spec: the closed set of effect kinds routed through the
handlers (`sample` and `param`). -/
inductive EffectKind where
  | sample
  | param
deriving DecidableEq, Repr

/-- An effect message: name, effect kind, settled value, observation flag, the
conditional-independence stack active at the site, and the external subsample
classification.  Modelled from the spec (the message plumbing lives in the
`Messenger`/`Poutine` base classes, outside the excerpt). -/
structure Msg where
  name : String
  kind : EffectKind
  value : Nat
  is_observed : Bool
  cond_indep_stack : List Frame
  subsample : Bool
deriving DecidableEq, Repr

/-- The string type tag an effect message carries ("sample" or "param"). -/
def Msg.typeString (m : Msg) : String :=
  match m.kind with
  | EffectKind.sample => "sample"
  | EffectKind.param => "param"

/-- The node written for a settled effect message: all fields copied from the
message (`TraceMessenger._postprocess_message` copies the message and updates
its value before insertion). -/
def nodeOfMsg (m : Msg) : Node :=
  { name := m.name, type := m.typeString, value := m.value,
    cond_indep_stack := m.cond_indep_stack, args := [], kwargs := [],
    is_observed := m.is_observed, subsample := m.subsample }

/-- `TraceMessenger._pyro_sample`: if the site name is already recorded, raise
when the recorded node is a param (cannot sample after a param statement) or a
prior sample (multiple sample sites of one name); otherwise defer. -/
def _pyro_sample (tr : Trace) (msg : Msg) : Except String Unit :=
  match tr.findNode msg.name with
  | some site =>
    if site.type = "param" then
      Except.error (msg.name ++ " is already in the trace as a param")
    else if site.type = "sample" then
      Except.error ("Multiple pyro.sample sites named " ++ msg.name)
    else
      Except.ok ()
  | none => Except.ok ()

/-- `TraceMessenger._pyro_param`: if the site name is already recorded as a
sample, raise; otherwise defer. -/
def _pyro_param (tr : Trace) (msg : Msg) : Except String Unit :=
  match tr.findNode msg.name with
  | some site =>
    if site.type = "sample" then
      Except.error (msg.name ++ " is already in the trace as a sample")
    else
      Except.ok ()
  | none => Except.ok ()

/-- `TraceMessenger._postprocess_message`: write the settled message into the
live trace as a node keyed by the message's name. -/
def _postprocess_message (tr : Trace) (msg : Msg) : Except String Trace :=
  tr.add_node (nodeOfMsg msg)

/-- One intercepted effect: the kind-specific process hook runs first (it may
raise on duplicate names), then the postprocess hook records the node. -/
def processEffect (tr : Trace) (msg : Msg) : Except String Trace :=
  match (match msg.kind with
         | EffectKind.sample => _pyro_sample tr msg
         | EffectKind.param => _pyro_param tr msg) with
  | Except.error e => Except.error e
  | Except.ok _ => _postprocess_message tr msg

/-- Run a computation's effects in order through the tracing handler, stopping
at the first failure. -/
def runEffects : Trace → List Msg → Except String Trace
  | tr, [] => Except.ok tr
  | tr, m :: rest =>
    match processEffect tr m with
    | Except.error e => Except.error e
    | Except.ok tr' => runEffects tr' rest

/-- Modelled from the spec: a deterministic bound computation, abstracted as
the ordered list of effects it performs plus its return value. -/
structure Computation where
  effects : List Msg
  ret : Nat
deriving DecidableEq, Repr

/-- The tracing handler's state: its configured graph type and its live trace. -/
structure TraceMessenger where
  graph_type : String
  trace : Trace
deriving DecidableEq, Repr

/-- An empty trace with the given graph type. -/
def emptyTrace (g : String) : Trace :=
  { graph_type := g, nodes := [], edges := [] }

/-- `TraceMessenger.__init__`: a missing graph type defaults to "flat"
(which trivially passes the assertion); any supplied value other than "flat"
or "dense" fails the assertion, modelled as an error result. -/
def TraceMessenger.init (graph_type : Option String) : Except String TraceMessenger :=
  match graph_type with
  | none => Except.ok { graph_type := "flat", trace := emptyTrace "flat" }
  | some g =>
    if g = "flat" ∨ g = "dense" then
      Except.ok { graph_type := g, trace := emptyTrace g }
    else
      Except.error "AssertionError: graph_type not in (flat, dense)"

/-- `TraceMessenger.get_trace`: a shallow copy of the live trace. -/
def TraceMessenger.get_trace (m : TraceMessenger) : Trace :=
  m.trace.copy

/-- The synthetic node `TracePoutine.__call__` records for the invocation's
arguments: name `_INPUT`, type tag "args". -/
def inputNode (args : List Nat) (kwargs : List (String × Nat)) : Node :=
  { name := "_INPUT", type := "args", value := 0, cond_indep_stack := [],
    args := args, kwargs := kwargs, is_observed := false, subsample := false }

/-- The synthetic node `TracePoutine.__call__` records for the computation's
result: name `_RETURN`, type tag "return". -/
def returnNode (ret : Nat) : Node :=
  { name := "_RETURN", type := "return", value := ret, cond_indep_stack := [],
    args := [], kwargs := [], is_observed := false, subsample := false }

/-- The input node `TraceMessenger._reset` seeds a rebuilt trace with: it
copies the old trace's recorded arguments but carries type tag "input". -/
def resetInputNode (args : List Nat) (kwargs : List (String × Nat)) : Node :=
  { name := "_INPUT", type := "input", value := 0, cond_indep_stack := [],
    args := args, kwargs := kwargs, is_observed := false, subsample := false }

/-- `TraceMessenger._reset`: build a fresh trace with the handler's graph type,
seeded with an input node whose arguments are looked up from the old trace's
`_INPUT` node (a lookup that fails if that node is absent), and install it as
the live trace. -/
def TraceMessenger.reset (m : TraceMessenger) : Except String TraceMessenger :=
  match m.trace.findNode "_INPUT" with
  | none => Except.error "KeyError: _INPUT"
  | some old =>
    match (emptyTrace m.graph_type).add_node (resetInputNode old.args old.kwargs) with
    | Except.error e => Except.error e
    | Except.ok tr => Except.ok { m with trace := tr }

/-- `TraceMessenger.__exit__`: when the graph type is "dense", run
`identify_dense_edges` over the live trace on context exit. -/
def exitPhase (g : String) (tr : Trace) : Trace :=
  if g = "dense" then identify_dense_edges tr else tr

/-- A tracing scope: the `TraceMessenger` paired with a bound computation. -/
structure TracePoutine where
  msngr : TraceMessenger
  fn : Computation
deriving DecidableEq, Repr

/-- `TracePoutine.__init__`: build the scope around a fresh `TraceMessenger`
configured with the given graph type. -/
def TracePoutine.init (fn : Computation) (graph_type : Option String) :
    Except String TracePoutine :=
  match TraceMessenger.init graph_type with
  | Except.error e => Except.error e
  | Except.ok m => Except.ok { msngr := m, fn := fn }

/-- The trace produced by one invocation as a function of the handler's graph
type and the bound computation: a fresh trace gains the `_INPUT` node (type
"args"), the computation's effects are recorded through the handler, the dense
pass runs on context exit when configured, and the `_RETURN` node is appended
last. -/
def callTrace (g : String) (c : Computation) (args : List Nat)
    (kwargs : List (String × Nat)) : Except String Trace :=
  match (emptyTrace g).add_node (inputNode args kwargs) with
  | Except.error e => Except.error e
  | Except.ok tr1 =>
    match runEffects tr1 c.effects with
    | Except.error e => Except.error e
    | Except.ok tr2 =>
      match (exitPhase g tr2).add_node (returnNode c.ret) with
      | Except.error e => Except.error e
      | Except.ok tr3 => Except.ok tr3

/-- `TracePoutine.__call__`: replace the live trace by the one built from this
invocation and return the computation's result. -/
def TracePoutine.call (p : TracePoutine) (args : List Nat)
    (kwargs : List (String × Nat)) : Except String (TracePoutine × Nat) :=
  match callTrace p.msngr.graph_type p.fn args kwargs with
  | Except.error e => Except.error e
  | Except.ok tr =>
    Except.ok ({ p with msngr := { p.msngr with trace := tr } }, p.fn.ret)

/-- Modelled from the spec: ExecutionStack uninstall, which pops the stack top
and fails with a stack-corruption condition if the top is not the handler
being removed. -/
def uninstall (h : String) : List String → Except String (List String)
  | [] => Except.error "StackCorruption"
  | t :: rest => if t = h then Except.ok rest else Except.error "StackCorruption"

/-- The Scope contract (modelled from the spec): install the bound handler on
the execution stack, run the invocation, and uninstall the handler on every
exit path, re-raising any failure after cleanup.  Returns the resulting stack
together with the invocation's outcome. -/
def TracePoutine.invoke (p : TracePoutine) (stack : List String) (hid : String)
    (args : List Nat) (kwargs : List (String × Nat)) :
    List String × Except String (TracePoutine × Nat) :=
  let stack1 := hid :: stack
  let r := p.call args kwargs
  match uninstall hid stack1 with
  | Except.error e => (stack1, Except.error e)
  | Except.ok stack2 =>
    match r with
    | Except.error e => (stack2, Except.error e)
    | Except.ok pr => (stack2, Except.ok pr)

/-! ### Concrete example inputs -/

/-- A subsample pseudo-site of type "sample" (the reason the outer loop tests
the subsample predicate before the type tag). -/
def exSub : Node :=
  { name := "s", type := "sample", value := 0, cond_indep_stack := [],
    args := [], kwargs := [], is_observed := false, subsample := true }

/-- An ordinary sample site recorded after the pseudo-site. -/
def exA : Node :=
  { name := "a", type := "sample", value := 0, cond_indep_stack := [],
    args := [], kwargs := [], is_observed := false, subsample := false }

/-- A trace holding a subsample pseudo-site followed by an ordinary sample. -/
def exTraceC1 : Trace :=
  { graph_type := "dense", nodes := [exSub, exA], edges := [] }

/-- Sample site x at replicate 0 of context "plate". -/
def exX0 : Node :=
  { name := "x0", type := "sample", value := 0,
    cond_indep_stack := [{ name := "plate", counter := 0 }],
    args := [], kwargs := [], is_observed := false, subsample := false }

/-- Sample site x at replicate 1 of context "plate". -/
def exX1 : Node :=
  { name := "x1", type := "sample", value := 0,
    cond_indep_stack := [{ name := "plate", counter := 1 }],
    args := [], kwargs := [], is_observed := false, subsample := false }

/-- Sample site y with an empty context stack, recorded after x0 and x1. -/
def exY : Node :=
  { name := "y", type := "sample", value := 0, cond_indep_stack := [],
    args := [], kwargs := [], is_observed := false, subsample := false }

/-- The two-replicates-then-dependent-site example trace. -/
def exTraceC2 : Trace :=
  { graph_type := "dense", nodes := [exX0, exX1, exY], edges := [] }

/-- A sample effect at name "a". -/
def exMsgA : Msg :=
  { name := "a", kind := EffectKind.sample, value := 1, is_observed := false,
    cond_indep_stack := [], subsample := false }

/-- A param effect at name "b". -/
def exMsgB : Msg :=
  { name := "b", kind := EffectKind.param, value := 3, is_observed := false,
    cond_indep_stack := [], subsample := false }

/-- A param effect at name "w". -/
def exMsgW : Msg :=
  { name := "w", kind := EffectKind.param, value := 2, is_observed := false,
    cond_indep_stack := [], subsample := false }

/-- The node recorded for the param effect at "w". -/
def exNodeW : Node := nodeOfMsg exMsgW

/-- A trace already holding a param node named "w". -/
def exTraceC4 : Trace := { graph_type := "flat", nodes := [exNodeW], edges := [] }

/-- A scope whose computation performs two sample effects with the same name. -/
def exPoutineC3 : TracePoutine :=
  { msngr := { graph_type := "flat", trace := emptyTrace "flat" },
    fn := { effects := [exMsgA, exMsgA], ret := 0 } }

/-- The live trace of the failing invocation just before its second effect. -/
def exTraceC3 : Trace :=
  { graph_type := "flat", nodes := [inputNode [] [], nodeOfMsg exMsgA], edges := [] }

/-- A flat scope over an effect-free computation returning 7. -/
def exPoutineC5 : TracePoutine :=
  { msngr := { graph_type := "flat", trace := emptyTrace "flat" },
    fn := { effects := [], ret := 7 } }

/-- A flat scope over a computation with one param effect, returning 5. -/
def exPoutineC5w : TracePoutine :=
  { msngr := { graph_type := "flat", trace := emptyTrace "flat" },
    fn := { effects := [exMsgB], ret := 5 } }

/-- The scope state left behind by invoking `exPoutineC5w`. -/
def exP2C5 : TracePoutine :=
  match exPoutineC5w.call [2] [] with
  | Except.ok pr => pr.1
  | Except.error _ => exPoutineC5w

/-- A flat scope with one sample effect, for the no-edges claim. -/
def exPoutineC6 : TracePoutine :=
  { msngr := { graph_type := "flat", trace := emptyTrace "flat" },
    fn := { effects := [exMsgA], ret := 2 } }

/-- The scope state left behind by invoking `exPoutineC6`. -/
def exP2C6 : TracePoutine :=
  match exPoutineC6.call [] [] with
  | Except.ok pr => pr.1
  | Except.error _ => exPoutineC6

/-- A handler holding a nonempty live trace (with an `_INPUT` node, a sample
node, and an edge), for the snapshot claim. -/
def exMessengerC7 : TraceMessenger :=
  { graph_type := "flat",
    trace := { graph_type := "flat",
               nodes := [inputNode [4] [], nodeOfMsg exMsgA],
               edges := [("p", "q")] } }

/-- The handler state left behind by resetting `exMessengerC7`. -/
def exM2C7 : TraceMessenger :=
  match exMessengerC7.reset with
  | Except.ok m2 => m2
  | Except.error _ => exMessengerC7

/-- A dense scope with two effects, for the determinism claim. -/
def exPoutineC9 : TracePoutine :=
  { msngr := { graph_type := "dense", trace := emptyTrace "dense" },
    fn := { effects := [exMsgA, exMsgB], ret := 1 } }

/-- The scope state left behind by invoking `exPoutineC9`. -/
def exP2C9 : TracePoutine :=
  match exPoutineC9.call [] [] with
  | Except.ok pr => pr.1
  | Except.error _ => exPoutineC9

/-- An effect-free computation, for the constructor claim. -/
def exComp : Computation := { effects := [], ret := 0 }

/-! ### Basic preservation lemmas -/

theorem nodes_add_edge (t : Trace) (f n : String) :
    (t.add_edge f n).nodes = t.nodes := by
  unfold Trace.add_edge
  split <;> rfl

theorem graph_type_add_edge (t : Trace) (f n : String) :
    (t.add_edge f n).graph_type = t.graph_type := by
  unfold Trace.add_edge
  split <;> rfl

theorem mem_add_edge {t : Trace} {f n : String} {e : String × String} :
    e ∈ (t.add_edge f n).edges ↔ e ∈ t.edges ∨ e = (f, n) := by
  unfold Trace.add_edge
  by_cases h : (f, n) ∈ t.edges
  · simp only [if_pos h]
    constructor
    · exact Or.inl
    · rintro (he | rfl)
      · exact he
      · exact h
  · simp [if_neg h, List.mem_append]

theorem nodes_denseInner (node : Node) (past : List Node) (tr : Trace) :
    (denseInner node past tr).nodes = tr.nodes := by
  induction past generalizing tr with
  | nil => rfl
  | cons p rest ih =>
    simp only [denseInner]
    split_ifs <;> simp [ih, nodes_add_edge]

theorem graph_type_denseInner (node : Node) (past : List Node) (tr : Trace) :
    (denseInner node past tr).graph_type = tr.graph_type := by
  induction past generalizing tr with
  | nil => rfl
  | cons p rest ih =>
    simp only [denseInner]
    split_ifs <;> simp [ih, graph_type_add_edge]

theorem nodes_denseOuter (ns : List Node) (tr : Trace) :
    (denseOuter ns tr).nodes = tr.nodes := by
  induction ns generalizing tr with
  | nil => rfl
  | cons n rest ih =>
    simp only [denseOuter]
    split_ifs <;> simp [ih, nodes_denseInner]

theorem graph_type_denseOuter (ns : List Node) (tr : Trace) :
    (denseOuter ns tr).graph_type = tr.graph_type := by
  induction ns generalizing tr with
  | nil => rfl
  | cons n rest ih =>
    simp only [denseOuter]
    split_ifs <;> simp [ih, graph_type_denseInner]

theorem nodes_identify_dense_edges (tr : Trace) :
    (identify_dense_edges tr).nodes = tr.nodes :=
  nodes_denseOuter tr.nodes tr

/-! ### Characterization of the edges added by the dense pass -/

theorem mem_denseInner {node : Node} {past : List Node} {tr : Trace}
    {e : String × String} (h : site_is_subsample node = false) :
    e ∈ (denseInner node past tr).edges ↔ e ∈ tr.edges ∨ InnerSpec node past e := by
  induction past generalizing tr with
  | nil => simp [denseInner, InnerSpec, scanPrefix]
  | cons p rest ih =>
    simp only [denseInner, h, Bool.false_eq_true, if_false]
    by_cases hty : p.type = "sample"
    · by_cases hname : p.name = node.name
      · simp only [if_pos hty, if_pos hname]
        have hscan : scanPrefix node (p :: rest) = [] := by
          simp [scanPrefix, List.takeWhile_cons, hty, hname]
        simp [InnerSpec, hscan]
      · simp only [if_pos hty, if_neg hname]
        have hscan : scanPrefix node (p :: rest) = p :: scanPrefix node rest := by
          simp [scanPrefix, List.takeWhile_cons, hname]
        cases hind : past_node_independent node p with
        | true =>
          rw [if_pos rfl, ih]
          constructor
          · rintro (he | hs)
            · exact Or.inl he
            · exact Or.inr (by
                obtain ⟨q, hq, hqs⟩ := hs
                exact ⟨q, by rw [hscan]; exact List.mem_cons_of_mem _ hq, hqs⟩)
          · rintro (he | ⟨q, hq, hqty, hqind, hqe⟩)
            · exact Or.inl he
            · rw [hscan] at hq
              rcases List.mem_cons.mp hq with rfl | hq
              · rw [hind] at hqind; cases hqind
              · exact Or.inr ⟨q, hq, hqty, hqind, hqe⟩
        | false =>
          simp only [Bool.false_eq_true, if_false]
          rw [ih]
          constructor
          · rintro (he | hs)
            · rcases mem_add_edge.mp he with he | rfl
              · exact Or.inl he
              · exact Or.inr ⟨p, by rw [hscan]; exact List.mem_cons_self p _,
                  hty, hind, rfl⟩
            · obtain ⟨q, hq, hqs⟩ := hs
              exact Or.inr ⟨q, by rw [hscan]; exact List.mem_cons_of_mem _ hq, hqs⟩
          · rintro (he | ⟨q, hq, hqty, hqind, hqe⟩)
            · exact Or.inl (mem_add_edge.mpr (Or.inl he))
            · rw [hscan] at hq
              rcases List.mem_cons.mp hq with rfl | hq
              · exact Or.inl (mem_add_edge.mpr (Or.inr (by rw [hqe])))
              · exact Or.inr ⟨q, hq, hqty, hqind, hqe⟩
    · simp only [if_neg hty]
      have hscan : scanPrefix node (p :: rest) = p :: scanPrefix node rest := by
        simp [scanPrefix, List.takeWhile_cons, hty]
      rw [ih]
      constructor
      · rintro (he | ⟨q, hq, hqs⟩)
        · exact Or.inl he
        · exact Or.inr ⟨q, by rw [hscan]; exact List.mem_cons_of_mem _ hq, hqs⟩
      · rintro (he | ⟨q, hq, hqty, hqind, hqe⟩)
        · exact Or.inl he
        · rw [hscan] at hq
          rcases List.mem_cons.mp hq with rfl | hq
          · exact absurd hqty hty
          · exact Or.inr ⟨q, hq, hqty, hqind, hqe⟩

theorem mem_denseOuter {ns : List Node} {tr : Trace} {e : String × String} :
    e ∈ (denseOuter ns tr).edges ↔
      e ∈ tr.edges ∨ ∃ n, n ∈ ns ∧ site_is_subsample n = false ∧
        n.type = "sample" ∧ InnerSpec n tr.nodes e := by
  induction ns generalizing tr with
  | nil => simp [denseOuter]
  | cons n rest ih =>
    simp only [denseOuter]
    cases hsub : site_is_subsample n with
    | true =>
      rw [if_pos rfl, ih]
      constructor
      · rintro (he | ⟨m, hm, hms⟩)
        · exact Or.inl he
        · exact Or.inr ⟨m, List.mem_cons_of_mem _ hm, hms⟩
      · rintro (he | ⟨m, hm, hmsub, hms⟩)
        · exact Or.inl he
        · rcases List.mem_cons.mp hm with rfl | hm
          · rw [hsub] at hmsub; cases hmsub
          · exact Or.inr ⟨m, hm, hmsub, hms⟩
    | false =>
      simp only [Bool.false_eq_true, if_false]
      by_cases hty : n.type = "sample"
      · simp only [if_pos hty]
        rw [ih, nodes_denseInner, mem_denseInner hsub]
        constructor
        · rintro ((he | hs) | ⟨m, hm, hms⟩)
          · exact Or.inl he
          · exact Or.inr ⟨n, List.mem_cons_self n _, hsub, hty, hs⟩
          · exact Or.inr ⟨m, List.mem_cons_of_mem _ hm, hms⟩
        · rintro (he | ⟨m, hm, hmsub, hmty, hms⟩)
          · exact Or.inl (Or.inl he)
          · rcases List.mem_cons.mp hm with rfl | hm
            · exact Or.inl (Or.inr hms)
            · exact Or.inr ⟨m, hm, hmsub, hmty, hms⟩
      · simp only [if_neg hty]
        rw [ih]
        constructor
        · rintro (he | ⟨m, hm, hms⟩)
          · exact Or.inl he
          · exact Or.inr ⟨m, List.mem_cons_of_mem _ hm, hms⟩
        · rintro (he | ⟨m, hm, hmsub, hmty, hms⟩)
          · exact Or.inl he
          · rcases List.mem_cons.mp hm with rfl | hm
            · exact absurd hmty hty
            · exact Or.inr ⟨m, hm, hmsub, hmty, hms⟩

theorem mem_identify_dense_edges {tr : Trace} {e : String × String} :
    e ∈ (identify_dense_edges tr).edges ↔
      e ∈ tr.edges ∨ ∃ n, n ∈ tr.nodes ∧ site_is_subsample n = false ∧
        n.type = "sample" ∧ InnerSpec n tr.nodes e :=
  mem_denseOuter

/-! ### scanPrefix and name-uniqueness helpers -/

theorem mem_of_mem_scanPrefix {node p : Node} {ns : List Node}
    (h : p ∈ scanPrefix node ns) : p ∈ ns := by
  induction ns with
  | nil => simp [scanPrefix] at h
  | cons q rest ih =>
    simp only [scanPrefix, List.takeWhile_cons] at h
    by_cases hc : (!(decide (q.type = "sample" ∧ q.name = node.name))) = true
    · rw [if_pos hc] at h
      rcases List.mem_cons.mp h with rfl | h
      · exact List.mem_cons_self _ _
      · exact List.mem_cons_of_mem _ (ih h)
    · rw [if_neg hc] at h
      cases h

theorem scanPrefix_append {node : Node} {l₁ l₂ : List Node}
    (h : ∀ x ∈ l₁, ¬(x.type = "sample" ∧ x.name = node.name)) :
    scanPrefix node (l₁ ++ l₂) = l₁ ++ scanPrefix node l₂ := by
  induction l₁ with
  | nil => rfl
  | cons q rest ih =>
    have hq := h q (List.mem_cons_self q _)
    simp only [scanPrefix, List.cons_append, List.takeWhile_cons]
    rw [if_pos (by simp [hq])]
    have := ih (fun x hx => h x (List.mem_cons_of_mem _ hx))
    simp only [scanPrefix] at this
    rw [this]

theorem scanPrefix_self_cons (node : Node) (l : List Node)
    (hty : node.type = "sample") : scanPrefix node (node :: l) = [] := by
  simp [scanPrefix, List.takeWhile_cons, hty]

theorem node_name_inj {ns : List Node} (hnd : (ns.map Node.name).Nodup)
    {a b : Node} (ha : a ∈ ns) (hb : b ∈ ns) (h : a.name = b.name) : a = b :=
  List.inj_on_of_nodup_map hnd ha hb h

theorem name_ne_of_mem_left {l₁ l₂ : List Node} {N : Node}
    (hnd : ((l₁ ++ N :: l₂).map Node.name).Nodup) {x : Node} (hx : x ∈ l₁) :
    x.name ≠ N.name := by
  rw [List.map_append] at hnd
  have hdisj := List.disjoint_of_nodup_append hnd
  intro h
  exact hdisj (List.mem_map_of_mem _ hx)
    (h ▸ List.mem_map_of_mem Node.name (List.mem_cons_self N l₂))

/-! ### Claim theorems: the dense-edge pass -/

/-- C1 (code_bug evidence): in `identify_dense_edges`, the inner-loop skip
tests the outer `node` instead of `past_node`, so a subsample pseudo-site of
type "sample" that precedes an ordinary sample site DOES originate an edge.
On the concrete trace [s (subsample), a], the code produces exactly the edge
(s, a), contradicting the claim that a subsample site never appears as the
source of an added edge. -/
theorem c1_subsample_originates_edge :
    site_is_subsample exSub = true ∧ site_is_subsample exA = false ∧
    exSub.type = "sample" ∧
    (identify_dense_edges exTraceC1).edges = [("s", "a")] := by
  decide

/-- C2: on a trace with no pre-existing edges and pairwise-distinct node
names, for every ordered pair of non-subsample sample nodes P strictly before
N in insertion order, the dense pass adds the edge P -> N exactly when no
position-wise pair of zipped cond_indep_stack frames shares a context name
with a different counter. -/
theorem c2_dense_edge_iff (tr : Trace) (P N : Node) (l₁ l₂ : List Node)
    (hnd : (tr.nodes.map Node.name).Nodup)
    (hedges : tr.edges = [])
    (hsplit : tr.nodes = l₁ ++ N :: l₂)
    (hPmem : P ∈ l₁)
    (hsubP : site_is_subsample P = false)
    (hsubN : site_is_subsample N = false)
    (htyP : P.type = "sample")
    (htyN : N.type = "sample") :
    (P.name, N.name) ∈ (identify_dense_edges tr).edges ↔
      past_node_independent N P = false := by
  have hNmem : N ∈ tr.nodes := by
    rw [hsplit]; exact List.mem_append_right _ (List.mem_cons_self _ _)
  have hPmem2 : P ∈ tr.nodes := by
    rw [hsplit]; exact List.mem_append_left _ hPmem
  have hne : ∀ x ∈ l₁, ¬(x.type = "sample" ∧ x.name = N.name) := by
    intro x hx hcontra
    exact name_ne_of_mem_left (hsplit ▸ hnd) hx hcontra.2
  have hscan : scanPrefix N tr.nodes = l₁ := by
    rw [hsplit, scanPrefix_append hne, scanPrefix_self_cons N l₂ htyN,
      List.append_nil]
  constructor
  · intro hmem
    rcases mem_identify_dense_edges.mp hmem with he | ⟨n, hn, _, _, q, hq, hqty, hqind, hqe⟩
    · rw [hedges] at he; cases he
    · have h1 : P.name = q.name := congrArg Prod.fst hqe
      have h2 : N.name = n.name := congrArg Prod.snd hqe
      have hnN : n = N := node_name_inj hnd hn hNmem h2.symm
      subst hnN
      have hqmem : q ∈ tr.nodes := mem_of_mem_scanPrefix hq
      have hqP : q = P := node_name_inj hnd hqmem hPmem2 h1.symm
      subst hqP
      exact hqind
  · intro hind
    exact mem_identify_dense_edges.mpr
      (Or.inr ⟨N, hNmem, hsubN, htyN, P, by rw [hscan]; exact hPmem, htyP, hind, rfl⟩)

/-- Witness for C2: the spec's worked example.  x0 and x1 are replicates 0 and
1 of context "plate" and get no edge between them, while y (empty stack,
recorded last) receives edges from both; the theorem instance is applied at
the pair (x0, y). -/
theorem c2_dense_edge_iff_witness :
    (((exX0.name, exY.name) ∈ (identify_dense_edges exTraceC2).edges) ↔
      past_node_independent exY exX0 = false) ∧
    (identify_dense_edges exTraceC2).edges = [("x0", "y"), ("x1", "y")] :=
  ⟨c2_dense_edge_iff exTraceC2 exX0 exY [exX0, exX1] [] (by decide) rfl rfl
      (by decide) rfl rfl rfl rfl, by decide⟩

/-! ### Pipeline lemmas -/

theorem containsName_of_findNode {tr : Trace} {n : String} {site : Node}
    (h : tr.findNode n = some site) : tr.containsName n = true := by
  have h2 : tr.nodes.find? (fun nd => nd.name == n) = some site := h
  have hmem : site ∈ tr.nodes := List.mem_of_find?_eq_some h2
  have hp := List.find?_some h2
  exact List.any_eq_true.mpr ⟨site, hmem, hp⟩

theorem add_node_ok_spec {tr tr2 : Trace} {nd : Node}
    (h : tr.add_node nd = Except.ok tr2) :
    tr.containsName nd.name = false ∧ tr2.nodes = tr.nodes ++ [nd] ∧
    tr2.edges = tr.edges ∧ tr2.graph_type = tr.graph_type := by
  unfold Trace.add_node at h
  by_cases hc : tr.containsName nd.name = true
  · rw [if_pos hc] at h
    exact Except.noConfusion h
  · rw [if_neg hc] at h
    injection h with h2
    subst h2
    exact ⟨by simp at hc; exact hc, rfl, rfl, rfl⟩

theorem not_mem_names_of_not_contains {tr : Trace} {n : String}
    (h : tr.containsName n = false) : n ∉ tr.nodes.map Node.name := by
  intro hmem
  rcases List.mem_map.mp hmem with ⟨x, hx, hxn⟩
  have hx2 : tr.nodes.any (fun nd => nd.name == n) = true :=
    List.any_eq_true.mpr ⟨x, hx, by simp [hxn]⟩
  have h2 : tr.nodes.any (fun nd => nd.name == n) = false := h
  rw [h2] at hx2
  exact Bool.noConfusion hx2

theorem processEffect_ok_add {tr tr2 : Trace} {m : Msg}
    (h : processEffect tr m = Except.ok tr2) :
    tr.add_node (nodeOfMsg m) = Except.ok tr2 := by
  unfold processEffect at h
  split at h
  · exact Except.noConfusion h
  · exact h

theorem nodup_after_add_node {tr tr2 : Trace} {nd : Node}
    (hnd : (tr.nodes.map Node.name).Nodup)
    (h : tr.add_node nd = Except.ok tr2) :
    (tr2.nodes.map Node.name).Nodup := by
  obtain ⟨hc, hnodes, -, -⟩ := add_node_ok_spec h
  rw [hnodes, List.map_append, List.nodup_append]
  refine ⟨hnd, by simp, ?_⟩
  intro a ha hb
  simp only [List.map_cons, List.map_nil, List.mem_singleton] at hb
  subst hb
  exact not_mem_names_of_not_contains hc ha

theorem runEffects_ok_spec {ms : List Msg} {tr tr2 : Trace}
    (h : runEffects tr ms = Except.ok tr2) :
    tr2.graph_type = tr.graph_type ∧ tr2.edges = tr.edges ∧
    ∃ new, tr2.nodes = tr.nodes ++ new ∧
      ∀ n ∈ new, n.type = "sample" ∨ n.type = "param" := by
  induction ms generalizing tr with
  | nil =>
    unfold runEffects at h
    injection h with h2
    subst h2
    exact ⟨rfl, rfl, [], by simp, by simp⟩
  | cons m rest ih =>
    have h1 : (match processEffect tr m with
               | Except.error e => Except.error e
               | Except.ok tr3 => runEffects tr3 rest) = Except.ok tr2 := h
    cases hm : processEffect tr m with
    | error e =>
      rw [hm] at h1
      exact Except.noConfusion h1
    | ok tr3 =>
      rw [hm] at h1
      obtain ⟨hg, he, new, hn, hall⟩ := ih (show runEffects tr3 rest = Except.ok tr2 from h1)
      obtain ⟨-, hnodes3, hedges3, hg3⟩ := add_node_ok_spec (processEffect_ok_add hm)
      refine ⟨by rw [hg, hg3], by rw [he, hedges3], nodeOfMsg m :: new, ?_, ?_⟩
      · rw [hn, hnodes3, List.append_assoc]
        rfl
      · intro n hn2
        rcases List.mem_cons.mp hn2 with rfl | hn2
        · cases hk : m.kind with
          | sample => exact Or.inl (by simp [nodeOfMsg, Msg.typeString, hk])
          | param => exact Or.inr (by simp [nodeOfMsg, Msg.typeString, hk])
        · exact hall n hn2

theorem runEffects_append_error {pre : List Msg} {tr tr2 : Trace} {msg : Msg}
    {post : List Msg} {e : String}
    (hpre : runEffects tr pre = Except.ok tr2)
    (herr : processEffect tr2 msg = Except.error e) :
    runEffects tr (pre ++ msg :: post) = Except.error e := by
  induction pre generalizing tr with
  | nil =>
    unfold runEffects at hpre
    injection hpre with h2
    subst h2
    show runEffects tr (msg :: post) = Except.error e
    unfold runEffects
    rw [herr]
  | cons m rest ih =>
    have h1 : (match processEffect tr m with
               | Except.error e2 => Except.error e2
               | Except.ok tr3 => runEffects tr3 rest) = Except.ok tr2 := hpre
    cases hm : processEffect tr m with
    | error e2 =>
      rw [hm] at h1
      exact Except.noConfusion h1
    | ok tr3 =>
      rw [hm] at h1
      show runEffects tr (m :: (rest ++ msg :: post)) = Except.error e
      unfold runEffects
      rw [hm]
      exact ih (show runEffects tr3 rest = Except.ok tr2 from h1)

theorem nodes_exitPhase (g : String) (tr : Trace) :
    (exitPhase g tr).nodes = tr.nodes := by
  unfold exitPhase
  split
  · exact nodes_identify_dense_edges tr
  · rfl

theorem graph_type_exitPhase (g : String) (tr : Trace) :
    (exitPhase g tr).graph_type = tr.graph_type := by
  unfold exitPhase
  split
  · exact graph_type_denseOuter tr.nodes tr
  · rfl

theorem edges_exitPhase_flat (tr : Trace) :
    (exitPhase "flat" tr).edges = tr.edges := by
  unfold exitPhase
  rw [if_neg (by decide)]

theorem init_add_input (g : String) (args : List Nat) (kwargs : List (String × Nat)) :
    (emptyTrace g).add_node (inputNode args kwargs) =
      Except.ok { graph_type := g, nodes := [inputNode args kwargs], edges := [] } := rfl

theorem callTrace_ok_spec {g : String} {c : Computation} {args : List Nat}
    {kwargs : List (String × Nat)} {tr : Trace}
    (h : callTrace g c args kwargs = Except.ok tr) :
    tr.graph_type = g ∧
    (∃ mid, tr.nodes = inputNode args kwargs :: (mid ++ [returnNode c.ret]) ∧
      ∀ n ∈ mid, n.type = "sample" ∨ n.type = "param") ∧
    (g = "flat" → tr.edges = []) := by
  have h1 : (match runEffects { graph_type := g, nodes := [inputNode args kwargs], edges := [] } c.effects with
             | Except.error e => Except.error e
             | Except.ok tr2 =>
               match (exitPhase g tr2).add_node (returnNode c.ret) with
               | Except.error e => Except.error e
               | Except.ok tr3 => Except.ok tr3) = Except.ok tr := h
  cases hr : runEffects { graph_type := g, nodes := [inputNode args kwargs], edges := [] } c.effects with
  | error e =>
    rw [hr] at h1
    exact Except.noConfusion h1
  | ok tr2 =>
    rw [hr] at h1
    have h2 : (match (exitPhase g tr2).add_node (returnNode c.ret) with
               | Except.error e => Except.error e
               | Except.ok tr3 => Except.ok tr3) = Except.ok tr := h1
    cases ha : (exitPhase g tr2).add_node (returnNode c.ret) with
    | error e =>
      rw [ha] at h2
      exact Except.noConfusion h2
    | ok tr3 =>
      rw [ha] at h2
      have h3 : Except.ok tr3 = Except.ok tr := h2
      injection h3 with h4
      subst h4
      obtain ⟨hg2, he2, new, hn2, hall⟩ := runEffects_ok_spec hr
      obtain ⟨-, hnodes3, hedges3, hg3⟩ := add_node_ok_spec ha
      refine ⟨?_, ⟨new, ?_, hall⟩, ?_⟩
      · rw [hg3, graph_type_exitPhase, hg2]
      · rw [hnodes3, nodes_exitPhase, hn2]
        rfl
      · intro hflat
        subst hflat
        rw [hedges3, edges_exitPhase_flat, he2]

theorem call_ok_spec {p : TracePoutine} {args : List Nat}
    {kwargs : List (String × Nat)} {p2 : TracePoutine} {r : Nat}
    (h : p.call args kwargs = Except.ok (p2, r)) :
    r = p.fn.ret ∧ p2.fn = p.fn ∧ p2.msngr.graph_type = p.msngr.graph_type ∧
    callTrace p.msngr.graph_type p.fn args kwargs = Except.ok p2.msngr.trace := by
  unfold TracePoutine.call at h
  split at h
  next e heq => exact Except.noConfusion h
  next tr heq =>
    injection h with h2
    have h3 : { p with msngr := { p.msngr with trace := tr } } = p2 :=
      congrArg Prod.fst h2
    have h4 : p.fn.ret = r := congrArg Prod.snd h2
    subst h3
    exact ⟨h4.symm, rfl, rfl, heq⟩

theorem callTrace_error_of_runEffects {g : String} {c : Computation}
    {args : List Nat} {kwargs : List (String × Nat)} {e : String}
    (h2 : runEffects { graph_type := g, nodes := [inputNode args kwargs], edges := [] } c.effects = Except.error e) :
    callTrace g c args kwargs = Except.error e := by
  have h1 : callTrace g c args kwargs =
      (match runEffects { graph_type := g, nodes := [inputNode args kwargs], edges := [] } c.effects with
       | Except.error e2 => Except.error e2
       | Except.ok tr2 =>
         match (exitPhase g tr2).add_node (returnNode c.ret) with
         | Except.error e2 => Except.error e2
         | Except.ok tr3 => Except.ok tr3) := rfl
  rw [h1, h2]

theorem call_error_of_callTrace {p : TracePoutine} {args : List Nat}
    {kwargs : List (String × Nat)} {e : String}
    (h : callTrace p.msngr.graph_type p.fn args kwargs = Except.error e) :
    p.call args kwargs = Except.error e := by
  unfold TracePoutine.call
  rw [h]

theorem invoke_eq (p : TracePoutine) (stack : List String) (hid : String)
    (args : List Nat) (kwargs : List (String × Nat)) :
    p.invoke stack hid args kwargs = (stack, p.call args kwargs) := by
  have hu : uninstall hid (hid :: stack) = Except.ok stack := by
    show (if hid = hid then Except.ok stack else Except.error "StackCorruption") =
      Except.ok stack
    rw [if_pos rfl]
  show (match uninstall hid (hid :: stack) with
        | Except.error e => (hid :: stack, Except.error e)
        | Except.ok stack2 =>
          match p.call args kwargs with
          | Except.error e => (stack2, Except.error e)
          | Except.ok pr => (stack2, Except.ok pr)) = (stack, p.call args kwargs)
  rw [hu]
  cases p.call args kwargs <;> rfl

/-! ### Claim theorems: handler and scope behavior -/

/-- C3: a sample effect at a name already recorded as a param node or a sample
node errors, and a param effect at a name recorded as a sample node errors; in
each case the error propagates to the caller of invoke (the invocation returns
the error, with the stack restored). -/
theorem c3_duplicate_site_error (tr : Trace) (msg : Msg) (site : Node)
    (hfind : tr.findNode msg.name = some site)
    (hdup : (msg.kind = EffectKind.sample ∧ (site.type = "param" ∨ site.type = "sample")) ∨
            (msg.kind = EffectKind.param ∧ site.type = "sample")) :
    ∃ e, processEffect tr msg = Except.error e ∧
      ∀ (p : TracePoutine) (stack : List String) (hid : String)
        (args : List Nat) (kwargs : List (String × Nat)) (pre post : List Msg),
        p.fn.effects = pre ++ msg :: post →
        runEffects { graph_type := p.msngr.graph_type, nodes := [inputNode args kwargs], edges := [] } pre = Except.ok tr →
        p.invoke stack hid args kwargs = (stack, Except.error e) := by
  have hmain : ∃ e, processEffect tr msg = Except.error e := by
    rcases hdup with ⟨hk, hty | hty⟩ | ⟨hk, hty⟩
    · exact ⟨msg.name ++ " is already in the trace as a param", by
        simp [processEffect, hk, _pyro_sample, hfind, hty]⟩
    · exact ⟨"Multiple pyro.sample sites named " ++ msg.name, by
        simp [processEffect, hk, _pyro_sample, hfind, hty]⟩
    · exact ⟨msg.name ++ " is already in the trace as a sample", by
        simp [processEffect, hk, _pyro_param, hfind, hty]⟩
  obtain ⟨e, hperr⟩ := hmain
  refine ⟨e, hperr, ?_⟩
  intro p stack hid args kwargs pre post heff hpre
  have hre : runEffects { graph_type := p.msngr.graph_type, nodes := [inputNode args kwargs], edges := [] } p.fn.effects = Except.error e := by
    rw [heff]
    exact runEffects_append_error hpre hperr
  have hcall : p.call args kwargs = Except.error e :=
    call_error_of_callTrace (callTrace_error_of_runEffects hre)
  rw [invoke_eq, hcall]

/-- Witness for C3: a computation performing two sample effects named "a"
fails at the second, and the invocation surfaces the error. -/
theorem c3_duplicate_site_error_witness :
    exTraceC3.findNode exMsgA.name = some (nodeOfMsg exMsgA) ∧
    ∃ e, processEffect exTraceC3 exMsgA = Except.error e ∧
      exPoutineC3.invoke ["base"] "h1" [] [] = (["base"], Except.error e) := by
  refine ⟨rfl, ?_⟩
  obtain ⟨e, h1, h2⟩ := c3_duplicate_site_error exTraceC3 exMsgA (nodeOfMsg exMsgA)
    rfl (Or.inl ⟨rfl, Or.inr rfl⟩)
  exact ⟨e, h1, h2 exPoutineC3 ["base"] "h1" [] [] [exMsgA] [] rfl rfl⟩

/-- C4: a second param effect at a name already recorded as a param node is
rejected with an error (the process hook passes, but the duplicate-rejecting
node insertion fails loudly), and successful node insertion preserves
uniqueness of names, so at most one node is ever written per name. -/
theorem c4_param_duplicate_rejected (tr : Trace) (msg : Msg) (site : Node)
    (hkind : msg.kind = EffectKind.param)
    (hfind : tr.findNode msg.name = some site)
    (hty : site.type = "param") :
    (∃ e, processEffect tr msg = Except.error e) ∧
    ∀ (tr2 tr3 : Trace) (m2 : Msg), (tr2.nodes.map Node.name).Nodup →
      processEffect tr2 m2 = Except.ok tr3 → (tr3.nodes.map Node.name).Nodup := by
  constructor
  · refine ⟨"duplicate site " ++ msg.name, ?_⟩
    have hcontains := containsName_of_findNode hfind
    have hpp : _pyro_param tr msg = Except.ok () := by
      simp [_pyro_param, hfind, hty]
    simp [processEffect, hkind, hpp, _postprocess_message, Trace.add_node,
      nodeOfMsg, hcontains]
  · intro tr2 tr3 m2 hnd hok
    exact nodup_after_add_node hnd (processEffect_ok_add hok)

/-- Witness for C4: a param effect at "w" against a trace already holding the
param node "w" is rejected. -/
theorem c4_param_duplicate_rejected_witness :
    exTraceC4.findNode exMsgW.name = some exNodeW ∧
    ∃ e, processEffect exTraceC4 exMsgW = Except.error e :=
  ⟨rfl, (c4_param_duplicate_rejected exTraceC4 exMsgW exNodeW rfl rfl rfl).1⟩

/-- C5 (counterexample): on a concrete effect-free invocation, the synthetic
node recording the call's arguments carries type tag "args", not "input" as
the claim states. -/
theorem c5_input_type_counterexample :
    ((exPoutineC5.call [3] []).toOption.bind
        (fun pr => pr.1.msngr.trace.findNode "_INPUT")).map Node.type = some "args" ∧
    ("args" : String) ≠ "input" := by
  constructor
  · rfl
  · decide

/-- C5 (amended): every node of a trace produced by an invocation has a type
tag in the set containing "args", "return", "sample" and "param"; the
synthetic argument node (type "args") comes first, before every effect node,
and the synthetic result node (type "return") comes last, after every effect
node. -/
theorem c5_amended_node_types (p : TracePoutine) (args : List Nat)
    (kwargs : List (String × Nat)) (p2 : TracePoutine) (r : Nat)
    (h : p.call args kwargs = Except.ok (p2, r)) :
    r = p.fn.ret ∧
    (inputNode args kwargs).type = "args" ∧
    (returnNode p.fn.ret).type = "return" ∧
    ∃ mid, p2.msngr.trace.nodes = inputNode args kwargs :: (mid ++ [returnNode p.fn.ret]) ∧
      ∀ n ∈ mid, n.type = "sample" ∨ n.type = "param" := by
  obtain ⟨hr, hfn, hg, hct⟩ := call_ok_spec h
  obtain ⟨-, ⟨mid, hmid, hall⟩, -⟩ := callTrace_ok_spec hct
  exact ⟨hr, rfl, rfl, mid, hmid, hall⟩

/-- Witness for C5: a one-effect computation, evaluated concretely. -/
theorem c5_amended_node_types_witness :
    exPoutineC5w.call [2] [] = Except.ok (exP2C5, 5) ∧
    ((5 : Nat) = exPoutineC5w.fn.ret ∧
     (inputNode [2] []).type = "args" ∧
     (returnNode exPoutineC5w.fn.ret).type = "return" ∧
     ∃ mid, exP2C5.msngr.trace.nodes = inputNode [2] [] :: (mid ++ [returnNode exPoutineC5w.fn.ret]) ∧
       ∀ n ∈ mid, n.type = "sample" ∨ n.type = "param") :=
  ⟨rfl, c5_amended_node_types exPoutineC5w [2] [] exP2C5 5 rfl⟩

/-- C6: an invocation of a flat-mode scope yields a trace with no edges: the
dense pass is skipped and no handler operation inserts an edge. -/
theorem c6_flat_no_edges (p : TracePoutine) (args : List Nat)
    (kwargs : List (String × Nat)) (p2 : TracePoutine) (r : Nat)
    (hflat : p.msngr.graph_type = "flat")
    (h : p.call args kwargs = Except.ok (p2, r)) :
    p2.msngr.trace.edges = [] := by
  obtain ⟨-, -, -, hct⟩ := call_ok_spec h
  rw [hflat] at hct
  exact (callTrace_ok_spec hct).2.2 rfl

/-- Witness for C6: a concrete flat invocation with one sample effect. -/
theorem c6_flat_no_edges_witness :
    exPoutineC6.msngr.graph_type = "flat" ∧
    exPoutineC6.call [] [] = Except.ok (exP2C6, 2) ∧
    exP2C6.msngr.trace.edges = [] :=
  ⟨rfl, rfl, c6_flat_no_edges exPoutineC6 [] [] exP2C6 2 rfl rfl⟩

/-- C7: the copy returned by get_trace is a full snapshot of the live trace
(same node list and edge list), and a subsequent reset replaces the live trace
with a fresh one (a single input node, no edges) without touching the data the
copy carries. -/
theorem c7_copy_snapshot (m m2 : TraceMessenger)
    (h : m.reset = Except.ok m2) :
    m.get_trace.nodes = m.trace.nodes ∧ m.get_trace.edges = m.trace.edges ∧
    ∃ old, m.trace.findNode "_INPUT" = some old ∧
      m2.trace.nodes = [resetInputNode old.args old.kwargs] ∧
      m2.trace.edges = [] := by
  refine ⟨rfl, rfl, ?_⟩
  unfold TraceMessenger.reset at h
  split at h
  · exact Except.noConfusion h
  next old heq =>
    split at h
    · exact Except.noConfusion h
    next tr heq2 =>
      injection h with h2
      subst h2
      obtain ⟨-, hnodes, hedges, -⟩ := add_node_ok_spec heq2
      refine ⟨old, heq, ?_, ?_⟩
      · rw [hnodes]
        rfl
      · rw [hedges]
        rfl

/-- Witness for C7: resetting a handler whose live trace holds an input node,
a sample node, and an edge. -/
theorem c7_copy_snapshot_witness :
    exMessengerC7.reset = Except.ok exM2C7 ∧
    (exMessengerC7.get_trace.nodes = exMessengerC7.trace.nodes ∧
     exMessengerC7.get_trace.edges = exMessengerC7.trace.edges ∧
     ∃ old, exMessengerC7.trace.findNode "_INPUT" = some old ∧
       exM2C7.trace.nodes = [resetInputNode old.args old.kwargs] ∧
       exM2C7.trace.edges = []) :=
  ⟨rfl, c7_copy_snapshot exMessengerC7 exM2C7 rfl⟩

/-- C8: when the bound computation fails, the invocation uninstalls the
handler on the error path — the resulting stack equals the pre-invocation
stack — and returns the computation's error unchanged. -/
theorem c8_exception_safety (p : TracePoutine) (stack : List String)
    (hid : String) (args : List Nat) (kwargs : List (String × Nat)) (e : String)
    (h : p.call args kwargs = Except.error e) :
    p.invoke stack hid args kwargs = (stack, Except.error e) := by
  rw [invoke_eq, h]

/-- Witness for C8: the duplicate-sample computation fails, and the stack
comes back unchanged with the original error. -/
theorem c8_exception_safety_witness :
    exPoutineC3.call [] [] = Except.error "Multiple pyro.sample sites named a" ∧
    exPoutineC3.invoke ["outer"] "h2" [] [] =
      (["outer"], Except.error "Multiple pyro.sample sites named a") :=
  ⟨rfl, c8_exception_safety exPoutineC3 ["outer"] "h2" [] []
    "Multiple pyro.sample sites named a" rfl⟩

/-- C9: a successful invocation depends only on the scope's graph type and
bound computation, both preserved by the invocation, so invoking the same
scope again with the same arguments reproduces the node list and edge list
exactly. -/
theorem c9_determinism (p : TracePoutine) (stack : List String) (hid : String)
    (args : List Nat) (kwargs : List (String × Nat)) (p2 : TracePoutine) (r : Nat)
    (h : p.invoke stack hid args kwargs = (stack, Except.ok (p2, r))) :
    ∃ p3, p2.invoke stack hid args kwargs = (stack, Except.ok (p3, r)) ∧
      p3.msngr.trace.nodes = p2.msngr.trace.nodes ∧
      p3.msngr.trace.edges = p2.msngr.trace.edges := by
  rw [invoke_eq] at h
  have hcall : p.call args kwargs = Except.ok (p2, r) := congrArg Prod.snd h
  obtain ⟨hr, hfn, hg, hct⟩ := call_ok_spec hcall
  refine ⟨p2, ?_, rfl, rfl⟩
  rw [invoke_eq]
  have h2 : p2.call args kwargs = Except.ok (p2, r) := by
    unfold TracePoutine.call
    rw [hfn, hg, hct, hr, ← hfn]
  rw [h2]

/-- Witness for C9: invoking a dense two-effect scope twice from the state the
first invocation left behind. -/
theorem c9_determinism_witness :
    exPoutineC9.invoke [] "h3" [] [] = ([], Except.ok (exP2C9, 1)) ∧
    ∃ p3, exP2C9.invoke [] "h3" [] [] = ([], Except.ok (p3, 1)) ∧
      p3.msngr.trace.nodes = exP2C9.msngr.trace.nodes ∧
      p3.msngr.trace.edges = exP2C9.msngr.trace.edges :=
  ⟨rfl, c9_determinism exPoutineC9 [] "h3" [] [] exP2C9 1 rfl⟩

/-- C10: a missing graph type defaults to "flat"; any value outside the set
containing "flat" and "dense" fails the constructor's assertion; an accepted
value is stored verbatim on the handler (also through the scope constructor)
and is inherited by every trace the handler creates, by invocation or reset. -/
theorem c10_graph_type_validation (g : String) (c : Computation) :
    (∃ m, TraceMessenger.init none = Except.ok m ∧ m.graph_type = "flat") ∧
    (g ≠ "flat" → g ≠ "dense" → ∃ e, TraceMessenger.init (some g) = Except.error e) ∧
    (∀ m, TraceMessenger.init (some g) = Except.ok m → m.graph_type = g) ∧
    (∀ p, TracePoutine.init c (some g) = Except.ok p → p.msngr.graph_type = g) ∧
    (∀ (m : TraceMessenger) (args : List Nat) (kwargs : List (String × Nat))
        (p2 : TracePoutine) (r : Nat),
      TracePoutine.call { msngr := m, fn := c } args kwargs = Except.ok (p2, r) →
      p2.msngr.trace.graph_type = m.graph_type) ∧
    (∀ m m2, TraceMessenger.reset m = Except.ok m2 →
      m2.trace.graph_type = m.graph_type) := by
  have hsome : ∀ m, TraceMessenger.init (some g) = Except.ok m → m.graph_type = g := by
    intro m hm
    have hm2 : (if g = "flat" ∨ g = "dense" then
        Except.ok { graph_type := g, trace := emptyTrace g }
      else
        Except.error "AssertionError: graph_type not in (flat, dense)") =
        Except.ok (ε := String) m := hm
    by_cases hok : g = "flat" ∨ g = "dense"
    · rw [if_pos hok] at hm2
      injection hm2 with h2
      subst h2
      rfl
    · rw [if_neg hok] at hm2
      exact Except.noConfusion hm2
  refine ⟨⟨{ graph_type := "flat", trace := emptyTrace "flat" }, rfl, rfl⟩, ?_, hsome, ?_, ?_, ?_⟩
  · intro h1 h2
    refine ⟨"AssertionError: graph_type not in (flat, dense)", ?_⟩
    show (if g = "flat" ∨ g = "dense" then
        Except.ok ({ graph_type := g, trace := emptyTrace g } : TraceMessenger)
      else
        Except.error "AssertionError: graph_type not in (flat, dense)") =
        Except.error "AssertionError: graph_type not in (flat, dense)"
    rw [if_neg]
    rintro (h | h)
    · exact h1 h
    · exact h2 h
  · intro p hp
    unfold TracePoutine.init at hp
    split at hp
    · exact Except.noConfusion hp
    next m heq =>
      injection hp with h2
      subst h2
      exact hsome m heq
  · intro m args kwargs p2 r hcall
    obtain ⟨-, -, -, hct⟩ := call_ok_spec hcall
    exact (callTrace_ok_spec hct).1
  · intro m m2 hreset
    unfold TraceMessenger.reset at hreset
    split at hreset
    · exact Except.noConfusion hreset
    next old heq =>
      split at hreset
      · exact Except.noConfusion hreset
      next tr heq2 =>
        injection hreset with h2
        subst h2
        obtain ⟨-, -, -, hg⟩ := add_node_ok_spec heq2
        exact hg

/-- Witness for C10: the default is "flat" and the value "purple" is
rejected. -/
theorem c10_graph_type_validation_witness :
    (∃ m, TraceMessenger.init none = Except.ok m ∧ m.graph_type = "flat") ∧
    (∃ e, TraceMessenger.init (some "purple") = Except.error e) := by
  have h := c10_graph_type_validation "purple" exComp
  exact ⟨h.1, h.2.1 (by decide) (by decide)⟩

end PyroTrace
